import Mathlib

/-!
Shallow embedding of `dockerized_refactor/python-script/cstr_controller.py`:
the telemetry sender `send_data_to_kafka`, the command receiver
`receive_tc_from_kafka`, and the simulation loop `simulate_cstr`.
Machine floats are modelled by `PyFloat` (a rational value, NaN, +inf or
-inf); the external ODE solver `odeint` is modelled as an abstract function
argument, and the Kafka channels as explicit inputs (message batches for the
consumer, per-iteration receive results for the loop).
-/

namespace CSTR

/-- Model of a Python float: a finite rational value, NaN, +infinity or
-infinity.  `np.isnan` is true exactly on NaN. -/
inductive PyFloat where
  | fin (q : ℚ)
  | nan
  | inf
  | ninf
deriving DecidableEq

/-- `np.isnan` on a numeric value: true exactly for NaN. -/
def PyFloat.isnan : PyFloat → Bool
  | .nan => true
  | _ => false

/-- Finiteness of a float: a finite rational value (not NaN, not ±infinity). -/
def PyFloat.isFinite : PyFloat → Bool
  | .fin _ => true
  | _ => false

/-- The value of the `"Tc"` member of a decoded command payload: either a
numeric value (a Python float, on which `np.isnan` is defined), or a value
of a non-numeric type (str, None, dict, multi-element list, ...) on which
`np.isnan(value["Tc"])` raises an uncaught `TypeError`. -/
inductive TcVal where
  | num (f : PyFloat)
  | nonnum
deriving DecidableEq

/-- A JSON value produced by `json.loads` on a string payload inside
`receive_tc_from_kafka`: a JSON object (with or without a `"Tc"` member), a
JSON string (subscripting it with `"Tc"` raises `TypeError`), or any other
JSON value — number, list, bool, null — on which `value["Tc"]` also raises
`TypeError`. -/
inductive JsonVal where
  | jdict (tc : Option TcVal)
  | jstr
  | jother
deriving DecidableEq

/-- `message.value` as seen by `receive_tc_from_kafka` after the consumer
deserializer: `mnull` is `None` (empty message); `mdict tc` is a dict whose
optional `"Tc"` member is `tc`; `mstr p` is a str, re-parsed by `json.loads`
inside the function, with `p = none` meaning a `JSONDecodeError`; `mother`
is any other type (list, number, bool), on which `value["Tc"]` raises
`TypeError`. -/
inductive MsgVal where
  | mnull
  | mdict (tc : Option TcVal)
  | mstr (p : Option JsonVal)
  | mother
deriving DecidableEq

/-- Outcome of processing one inbound message in `receive_tc_from_kafka`:
return the value (`accept`), log and continue with the next message
(`skip`), or raise an uncaught exception (`raise`).  Only `KeyError` and
`json.JSONDecodeError` are caught by the code; the `TypeError` raised by
`np.isnan` on a non-numeric value, or by subscripting a non-dict, is not. -/
inductive MsgStep where
  | accept (v : PyFloat)
  | skip
  | raise
deriving DecidableEq

/-- The per-message body of the inner `for message in consumer` loop of
`receive_tc_from_kafka`, lines 49-64 of the source. -/
def processMsg : MsgVal → MsgStep
  | .mnull => .skip
  | .mdict none => .skip
  | .mdict (some (.num f)) => if f.isnan then .skip else .accept f
  | .mdict (some .nonnum) => .raise
  | .mstr none => .skip
  | .mstr (some (.jdict none)) => .skip
  | .mstr (some (.jdict (some (.num f)))) => if f.isnan then .skip else .accept f
  | .mstr (some (.jdict (some .nonnum))) => .raise
  | .mstr (some .jstr) => .raise
  | .mstr (some .jother) => .raise
  | .mother => .raise

/-- Result of a call to `receive_tc_from_kafka`: a parsed control value
(`accepted`, the ACCEPTED terminal state), `None` after the attempt loop
ends (`exhausted`, the EXHAUSTED terminal state), or an uncaught exception
escaping the call (`error`). -/
inductive RxResult where
  | accepted (v : PyFloat)
  | exhausted
  | error
deriving DecidableEq

/-- One pass of the inner `for message in consumer` loop over the batch of
messages the iterator yields on this attempt: `none` means the batch fell
through (every message skipped). -/
def runBatch : List MsgVal → Option RxResult
  | [] => none
  | m :: rest =>
    match processMsg m with
    | .accept f => some (.accepted f)
    | .raise => some .error
    | .skip => runBatch rest

/-- The outer `for attempt in range(5)` loop of `receive_tc_from_kafka`:
runs the batches in order, counting attempts consumed; falls out to
EXHAUSTED when all batches fall through. -/
def rxGo : List (List MsgVal) → ℕ → RxResult × ℕ
  | [], n => (.exhausted, n)
  | b :: bs, n =>
    match runBatch b with
    | some r => (r, n + 1)
    | none => rxGo bs (n + 1)

/-- `receive_tc_from_kafka`, lines 46-68 of the source: the consumer
environment is the function `batches` giving the messages the consumer
iterator yields on each of the 5 attempts.  Returns the result together
with the number of attempts consumed. -/
def receive_tc_from_kafka (batches : ℕ → List MsgVal) : RxResult × ℕ :=
  rxGo ((List.range 5).map batches) 0

/-- The numeric `"Tc"` field a message carries, when its payload is (or
parses to) a dict whose `"Tc"` member is numeric; `none` otherwise. -/
def msgTcNum : MsgVal → Option PyFloat
  | .mdict (some (.num f)) => some f
  | .mstr (some (.jdict (some (.num f)))) => some f
  | _ => none

/-- Result of one call to `send_data_to_kafka`: whether a telemetry message
was emitted, whether the `/healthcheck` file was created by this call, and
whether the file exists after the call. -/
structure SendResult where
  emitted : Bool
  created : Bool
  healthcheck : Bool
deriving DecidableEq

/-- `send_data_to_kafka`, lines 29-43 of the source: emits the telemetry
message iff neither value is NaN, and on emission creates the healthcheck
file when it does not already exist (`healthcheck` is the file's existence
before the call). -/
def send_data_to_kafka (ca temp : PyFloat) (healthcheck : Bool) : SendResult :=
  if !ca.isnan && !temp.isnan then
    ⟨true, !healthcheck, true⟩
  else
    ⟨false, false, healthcheck⟩

/-- A sequence of `send_data_to_kafka` calls (the per-step telemetry
emissions of one run) threaded through the healthcheck-file state; returns
the final file state and the number of times the file was created. -/
def runSends : List (PyFloat × PyFloat) → Bool → Bool × ℕ
  | [], hc => (hc, 0)
  | p :: rest, hc =>
    let r := send_data_to_kafka p.1 p.2 hc
    let rec2 := runSends rest r.healthcheck
    (rec2.1, (if r.created then 1 else 0) + rec2.2)

/-- The mutable state of `simulate_cstr`: the `Ca` and `T` result arrays,
the control-input array `u` (mutated in place when a command is accepted),
and the list `x0` (mutated in place to the newly integrated state each
iteration). -/
structure SimState where
  Ca : List PyFloat
  T : List PyFloat
  u : List PyFloat
  x0 : PyFloat × PyFloat
deriving DecidableEq

/-- The body of one iteration `i` of the `for i in range(len(t) - 1)` loop
of `simulate_cstr`, lines 115-145 of the source.  `ode x0 ts u Tf Caf`
abstracts the last row of `odeint(cstr, x0, ts, args=(u, Tf, Caf))`;
`rx i` abstracts the result of the call to `receive_tc_from_kafka` on
iteration `i` (`some tc` for an accepted value, `none` for the EXHAUSTED
`None` result).  The telemetry send has no effect on the loop state. -/
def simStep (ode : PyFloat × PyFloat → PyFloat × PyFloat → PyFloat → PyFloat → PyFloat → PyFloat × PyFloat)
    (Tf Caf : PyFloat) (t : List PyFloat) (rx : ℕ → Option PyFloat)
    (i : ℕ) (s : SimState) : SimState :=
  let ts := (t.getD i (.fin 0), t.getD (i + 1) (.fin 0))
  let y := ode s.x0 ts (s.u.getD (i + 1) (.fin 0)) Tf Caf
  let u' := match rx i with
    | some tc => s.u.set (i + 1) tc
    | none => s.u
  ⟨s.Ca.set (i + 1) y.1, s.T.set (i + 1) y.2, u', y⟩

/-- The state of `simulate_cstr` after the first `n` iterations of its
loop, starting from the entry state: `Ca = np.ones(len(t)) * x0[0]`,
`T = np.ones(len(t)) * x0[1]`, the caller's `u` and `x0`. -/
def iterState (ode : PyFloat × PyFloat → PyFloat × PyFloat → PyFloat → PyFloat → PyFloat → PyFloat × PyFloat)
    (u : List PyFloat) (Tf Caf : PyFloat) (x0 : PyFloat × PyFloat)
    (t : List PyFloat) (rx : ℕ → Option PyFloat) : ℕ → SimState
  | 0 => ⟨List.replicate t.length x0.1, List.replicate t.length x0.2, u, x0⟩
  | n + 1 => simStep ode Tf Caf t rx n (iterState ode u Tf Caf x0 t rx n)

/-- `simulate_cstr(u, Tf, Caf, x0, t)`, lines 111-147 of the source: runs
the loop for `i in range(len(t) - 1)` and returns the final state (the
`Ca`, `T` arrays the function returns, plus the final contents of the
caller's `u` and `x0` lists, which the function mutates in place). -/
def simulate_cstr (ode : PyFloat × PyFloat → PyFloat × PyFloat → PyFloat → PyFloat → PyFloat → PyFloat × PyFloat)
    (u : List PyFloat) (Tf Caf : PyFloat) (x0 : PyFloat × PyFloat)
    (t : List PyFloat) (rx : ℕ → Option PyFloat) : SimState :=
  iterState ode u Tf Caf x0 t rx (t.length - 1)

/-- The control-input value passed to `odeint` on iteration `i` of the
loop: the entry at index `i + 1` of the `u` array as it stands when
iteration `i` begins (`simStep` reads exactly this value). -/
def usedInput (ode : PyFloat × PyFloat → PyFloat × PyFloat → PyFloat → PyFloat → PyFloat → PyFloat × PyFloat)
    (u : List PyFloat) (Tf Caf : PyFloat) (x0 : PyFloat × PyFloat)
    (t : List PyFloat) (rx : ℕ → Option PyFloat) (i : ℕ) : PyFloat :=
  (iterState ode u Tf Caf x0 t rx i).u.getD (i + 1) (.fin 0)

/-- A concrete ODE abstraction for witnesses: the end state copies the
control input into both components, so the control value actually used is
observable in the state. -/
def odeC : PyFloat × PyFloat → PyFloat × PyFloat → PyFloat → PyFloat → PyFloat → PyFloat × PyFloat :=
  fun _ _ c _ _ => (c, c)

/-- Concrete time grid `[0, 1, 2]` for witnesses (the spec's end-to-end
scenario). -/
def tC : List PyFloat := [.fin 0, .fin 1, .fin 2]

/-- Concrete control-input array `[300, 300, 300]` for witnesses. -/
def uC : List PyFloat := [.fin 300, .fin 300, .fin 300]

/-- Concrete receive outcomes: ACCEPTED with 305 on step 0, EXHAUSTED
afterwards (the spec's ACCEPTED scenario). -/
def rxC : ℕ → Option PyFloat := fun i => if i = 0 then some (.fin 305) else none

/-- Concrete receive outcomes: always EXHAUSTED. -/
def rxNone : ℕ → Option PyFloat := fun _ => none

/-- Concrete initial state for witnesses. -/
def x0C : PyFloat × PyFloat := (.fin 1, .fin 324)

/-! ### List helpers -/

theorem getD_set_ne (l : List PyFloat) (i j : ℕ) (v d : PyFloat) (h : i ≠ j) :
    (l.set i v).getD j d = l.getD j d := by
  simp [List.getD_eq_getElem?_getD, List.getElem?_set_ne h]

theorem getD_set_self (l : List PyFloat) (i : ℕ) (v d : PyFloat) (h : i < l.length) :
    (l.set i v).getD i d = v := by
  simp [List.getD_eq_getElem?_getD, List.getElem?_set_self, h]

theorem getD_replicate (n i : ℕ) (x d : PyFloat) (h : i < n) :
    (List.replicate n x).getD i d = x := by
  induction n generalizing i with
  | zero => omega
  | succ n ih =>
    cases i with
    | zero => rfl
    | succ i => exact ih i (by omega)

/-! ### Invariants of the simulation loop state -/

section SimLemmas

variable (ode : PyFloat × PyFloat → PyFloat × PyFloat → PyFloat → PyFloat → PyFloat → PyFloat × PyFloat)
variable (u : List PyFloat) (Tf Caf : PyFloat) (x0 : PyFloat × PyFloat)
variable (t : List PyFloat) (rx : ℕ → Option PyFloat)

theorem iterState_u_length (n : ℕ) :
    (iterState ode u Tf Caf x0 t rx n).u.length = u.length := by
  induction n with
  | zero => rfl
  | succ n ih =>
    simp only [iterState, simStep]
    cases h : rx n <;> simp [h, ih]

theorem iterState_Ca_length (n : ℕ) :
    (iterState ode u Tf Caf x0 t rx n).Ca.length = t.length := by
  induction n with
  | zero => simp [iterState]
  | succ n ih => simp [iterState, simStep, ih]

theorem iterState_T_length (n : ℕ) :
    (iterState ode u Tf Caf x0 t rx n).T.length = t.length := by
  induction n with
  | zero => simp [iterState]
  | succ n ih => simp [iterState, simStep, ih]

/-- Entries of `u` at indices not yet written (index `j + 1` with `j ≥ k`
after `k` iterations, since iteration `m` writes only index `m + 1`) still
hold their initial values. -/
theorem iterState_u_getD_future (k j : ℕ) (hkj : k ≤ j) :
    (iterState ode u Tf Caf x0 t rx k).u.getD (j + 1) (.fin 0)
      = u.getD (j + 1) (.fin 0) := by
  induction k with
  | zero => rfl
  | succ k ih =>
    have hk : k ≤ j := by omega
    simp only [iterState, simStep]
    cases h : rx k with
    | none => simpa [h] using ih hk
    | some tc =>
      have hne : k + 1 ≠ j + 1 := by omega
      simp only [h]
      rw [getD_set_ne _ _ _ _ _ hne]
      exact ih hk

/-- Index `0` of the control sequence is never overwritten by the loop. -/
theorem iterState_u_getD_zero (n : ℕ) :
    (iterState ode u Tf Caf x0 t rx n).u.getD 0 (.fin 0) = u.getD 0 (.fin 0) := by
  induction n with
  | zero => rfl
  | succ n ih =>
    simp only [iterState, simStep]
    cases h : rx n with
    | none => simpa [h] using ih
    | some tc =>
      simp only [h]
      rw [getD_set_ne _ _ _ _ _ (by omega)]
      exact ih

/-- After `k` iterations (for `k` within the grid), the `x0` list holds the
pair `(Ca[k], T[k])`. -/
theorem iterState_x0_eq (k : ℕ) (hk : k < t.length) :
    (iterState ode u Tf Caf x0 t rx k).x0
      = ((iterState ode u Tf Caf x0 t rx k).Ca.getD k (.fin 0),
         (iterState ode u Tf Caf x0 t rx k).T.getD k (.fin 0)) := by
  induction k with
  | zero =>
    simp only [iterState]
    rw [getD_replicate _ _ _ _ hk, getD_replicate _ _ _ _ hk]
  | succ k ih =>
    simp only [iterState, simStep]
    rw [getD_set_self _ _ _ _ (by rw [iterState_Ca_length]; omega),
        getD_set_self _ _ _ _ (by rw [iterState_T_length]; omega)]

end SimLemmas

/-! ### Lemmas on the command receiver -/

theorem runBatch_of_skips (b : List MsgVal) (h : ∀ m ∈ b, processMsg m = MsgStep.skip) :
    runBatch b = none := by
  induction b with
  | nil => rfl
  | cons m rest ih =>
    have hm := h m (by simp)
    simp only [runBatch, hm]
    exact ih fun m2 hm2 => h m2 (by simp [hm2])

theorem runBatch_append_accept (pre post : List MsgVal) (m : MsgVal) (v : PyFloat)
    (hpre : ∀ m2 ∈ pre, processMsg m2 = MsgStep.skip)
    (hm : processMsg m = MsgStep.accept v) :
    runBatch (pre ++ m :: post) = some (RxResult.accepted v) := by
  induction pre with
  | nil => simp [runBatch, hm]
  | cons p rest ih =>
    have hp := hpre p (by simp)
    simp only [List.cons_append, runBatch, hp]
    exact ih fun m2 hm2 => hpre m2 (by simp [hm2])

theorem rxGo_of_all_none (bs : List (List MsgVal)) (n : ℕ)
    (h : ∀ b ∈ bs, runBatch b = none) :
    rxGo bs n = (RxResult.exhausted, n + bs.length) := by
  induction bs generalizing n with
  | nil => simp [rxGo]
  | cons b rest ih =>
    have hb := h b (by simp)
    simp only [rxGo, hb]
    rw [ih (n + 1) fun b2 hb2 => h b2 (by simp [hb2])]
    simp
    omega

/-- If the first `k` batches fall through and batch `k` produces a result,
the attempt loop returns that result having consumed `k + 1` attempts. -/
theorem rxGo_reaches (bs : List (List MsgVal)) (k n : ℕ) (r : RxResult)
    (hk : k < bs.length)
    (h1 : ∀ j, j < k → runBatch (bs.getD j []) = none)
    (hb : runBatch (bs.getD k []) = some r) :
    rxGo bs n = (r, n + k + 1) := by
  induction bs generalizing k n with
  | nil => simp at hk
  | cons b rest ih =>
    cases k with
    | zero =>
      have hb' : runBatch b = some r := by simpa using hb
      simp only [rxGo, hb']
    | succ k =>
      have hb0 : runBatch b = none := by
        have := h1 0 (by omega)
        simpa using this
      simp only [rxGo, hb0]
      have := ih k (n + 1) (by simpa using hk)
        (fun j hj => by simpa using h1 (j + 1) (by omega))
        (by simpa using hb)
      rw [this]
      simp
      omega

theorem getD_range_map (f : ℕ → List MsgVal) (j : ℕ) (h : j < 5) :
    ((List.range 5).map f).getD j [] = f j := by
  simp [List.getD_eq_getElem?_getD, List.getElem?_map, List.getElem?_range h]

/-- A message is accepted by `processMsg` only when it carries a numeric,
non-NaN `"Tc"` field holding exactly the returned value. -/
theorem processMsg_accept (m : MsgVal) (v : PyFloat) (h : processMsg m = MsgStep.accept v) :
    msgTcNum m = some v ∧ v.isnan = false := by
  cases m with
  | mnull => simp [processMsg] at h
  | mother => simp [processMsg] at h
  | mdict tc =>
    match tc with
    | none => simp [processMsg] at h
    | some (.nonnum) => simp [processMsg] at h
    | some (.num f) =>
      by_cases hf : f.isnan = true
      · simp [processMsg, hf] at h
      · have hf' : f.isnan = false := by simpa using hf
        simp only [processMsg, hf', Bool.false_eq_true, if_false, MsgStep.accept.injEq] at h
        subst h
        exact ⟨rfl, hf'⟩
  | mstr p =>
    match p with
    | none => simp [processMsg] at h
    | some .jstr => simp [processMsg] at h
    | some .jother => simp [processMsg] at h
    | some (.jdict none) => simp [processMsg] at h
    | some (.jdict (some .nonnum)) => simp [processMsg] at h
    | some (.jdict (some (.num f))) =>
      by_cases hf : f.isnan = true
      · simp [processMsg, hf] at h
      · have hf' : f.isnan = false := by simpa using hf
        simp only [processMsg, hf', Bool.false_eq_true, if_false, MsgStep.accept.injEq] at h
        subst h
        exact ⟨rfl, hf'⟩

theorem runBatch_accepted_sound (b : List MsgVal) (v : PyFloat)
    (h : runBatch b = some (RxResult.accepted v)) :
    v.isnan = false ∧ ∃ m ∈ b, msgTcNum m = some v := by
  induction b with
  | nil => simp [runBatch] at h
  | cons m rest ih =>
    simp only [runBatch] at h
    cases hm : processMsg m with
    | accept f =>
      rw [hm] at h
      simp only [Option.some.injEq, RxResult.accepted.injEq] at h
      obtain ⟨h1, h2⟩ := processMsg_accept m f hm
      rw [h] at h1 h2
      exact ⟨h2, m, by simp, h1⟩
    | skip =>
      rw [hm] at h
      obtain ⟨h1, m2, hm2, h3⟩ := ih h
      exact ⟨h1, m2, by simp [hm2], h3⟩
    | raise =>
      rw [hm] at h
      simp at h

theorem rxGo_accepted_sound (bs : List (List MsgVal)) (n n2 : ℕ) (v : PyFloat)
    (h : rxGo bs n = (RxResult.accepted v, n2)) :
    v.isnan = false ∧ ∃ b ∈ bs, ∃ m ∈ b, msgTcNum m = some v := by
  induction bs generalizing n with
  | nil => simp [rxGo] at h
  | cons b rest ih =>
    simp only [rxGo] at h
    cases hb : runBatch b with
    | some r =>
      rw [hb] at h
      simp only [Prod.mk.injEq] at h
      obtain ⟨hr, -⟩ := h
      subst hr
      obtain ⟨h1, m, hm, h2⟩ := runBatch_accepted_sound b v hb
      exact ⟨h1, b, by simp, m, hm, h2⟩
    | none =>
      rw [hb] at h
      obtain ⟨h1, b2, hb2, m, hm, h2⟩ := ih (n + 1) h
      exact ⟨h1, b2, by simp [hb2], m, hm, h2⟩

/-! ### Lemmas on the telemetry sender -/

/-- Once the healthcheck file exists, no later call creates it again (and
the file keeps existing). -/
theorem runSends_true (sends : List (PyFloat × PyFloat)) :
    runSends sends true = (true, 0) := by
  induction sends with
  | nil => rfl
  | cons p rest ih =>
    by_cases hp : (!p.1.isnan && !p.2.isnan) = true
    · simp [runSends, send_data_to_kafka, hp, ih]
    · simp [runSends, send_data_to_kafka, hp, ih]

/-! ### Concrete message streams -/

/-- A stream whose only message carries `Tc = +inf` on every attempt. -/
def batchesInf : ℕ → List MsgVal := fun _ => [MsgVal.mdict (some (TcVal.num PyFloat.inf))]

/-- A stream whose only message is a JSON-string payload parsing to a dict
with `Tc = -inf`. -/
def batchesNinf : ℕ → List MsgVal :=
  fun _ => [MsgVal.mstr (some (JsonVal.jdict (some (TcVal.num PyFloat.ninf))))]

/-- A stream whose only message is a dict whose `"Tc"` member holds a value
of a non-numeric type. -/
def batchesNonnum : ℕ → List MsgVal := fun _ => [MsgVal.mdict (some TcVal.nonnum)]

/-- A stream yielding no messages on any attempt. -/
def batchesEmpty : ℕ → List MsgVal := fun _ => []

/-- A stream whose only message is a dict with `Tc = 300`. -/
def batches300 : ℕ → List MsgVal := fun _ => [MsgVal.mdict (some (TcVal.num (PyFloat.fin 300)))]

/-! ### Claims -/

/-- C1: every iteration `i` of the simulation loop integrates the step from
`t_i` to `t_{i+1}` using control-input index `i + 1` — whose entry at the
time of the call still equals the initial array's entry `i + 1` — and never
control-input index `i`. -/
theorem C1_one_step_ahead
    (ode : PyFloat × PyFloat → PyFloat × PyFloat → PyFloat → PyFloat → PyFloat → PyFloat × PyFloat)
    (u : List PyFloat) (Tf Caf : PyFloat) (x0 : PyFloat × PyFloat)
    (t : List PyFloat) (rx : ℕ → Option PyFloat) (i : ℕ) (_hi : i + 1 < t.length) :
    usedInput ode u Tf Caf x0 t rx i = u.getD (i + 1) (.fin 0) ∧
    (u.getD (i + 1) (.fin 0) ≠ u.getD i (.fin 0) →
      usedInput ode u Tf Caf x0 t rx i ≠ u.getD i (.fin 0)) := by
  have h := iterState_u_getD_future ode u Tf Caf x0 t rx i i le_rfl
  refine ⟨h, fun hne => ?_⟩
  rw [usedInput, h]
  exact hne

/-- C1 witness: the theorem at the concrete scenario (time grid `[0,1,2]`,
control inputs `[300,300,300]`, ACCEPTED 305 at step 0). -/
theorem C1_one_step_ahead_witness :
    usedInput odeC uC (PyFloat.fin 350) (PyFloat.fin 1) x0C tC rxC 0
      = uC.getD 1 (PyFloat.fin 0) ∧
    (uC.getD 1 (PyFloat.fin 0) ≠ uC.getD 0 (PyFloat.fin 0) →
      usedInput odeC uC (PyFloat.fin 350) (PyFloat.fin 1) x0C tC rxC 0
        ≠ uC.getD 0 (PyFloat.fin 0)) :=
  C1_one_step_ahead odeC uC (PyFloat.fin 350) (PyFloat.fin 1) x0C tC rxC 0 (by decide)

/-- C2 counterexample: a stream whose only message carries `Tc = +inf` —
which is not a finite value — is not EXHAUSTED after 5 attempts: the code
accepts `+inf` on the first attempt, because it filters only NaN. -/
theorem C2_counterexample :
    PyFloat.isFinite PyFloat.inf = false ∧
    receive_tc_from_kafka batchesInf = (RxResult.accepted PyFloat.inf, 1) ∧
    receive_tc_from_kafka batchesInf ≠ (RxResult.exhausted, 5) := by decide

/-- C2 (amended): for every stream in which all messages of all 5 attempts
are skipped (null, missing `"Tc"`, unparseable string, or NaN `"Tc"`), the
receiver returns EXHAUSTED after exactly 5 attempts; and when the messages
before the first one carrying an acceptable (numeric, non-NaN) value are
all skipped, it returns ACCEPTED with that value immediately, consuming
only the attempts up to that point. -/
theorem C2_attempt_policy (batches : ℕ → List MsgVal) :
    ((∀ i, i < 5 → ∀ m ∈ batches i, processMsg m = MsgStep.skip) →
      receive_tc_from_kafka batches = (RxResult.exhausted, 5)) ∧
    (∀ k v pre mv post, k < 5 →
      (∀ j, j < k → ∀ m ∈ batches j, processMsg m = MsgStep.skip) →
      batches k = pre ++ mv :: post →
      (∀ m ∈ pre, processMsg m = MsgStep.skip) →
      processMsg mv = MsgStep.accept v →
      receive_tc_from_kafka batches = (RxResult.accepted v, k + 1)) := by
  constructor
  · intro h
    rw [receive_tc_from_kafka, rxGo_of_all_none]
    · simp
    · intro b hb
      simp only [List.mem_map, List.mem_range] at hb
      obtain ⟨i, hi, rfl⟩ := hb
      exact runBatch_of_skips _ (h i hi)
  · intro k v pre mv post hk h1 hbk hpre hmv
    have h5 : k < ((List.range 5).map batches).length := by simpa using hk
    have hgo := rxGo_reaches ((List.range 5).map batches) k 0 (RxResult.accepted v) h5
      (fun j hj => by
        rw [getD_range_map _ j (by omega)]
        exact runBatch_of_skips _ (h1 j hj))
      (by
        rw [getD_range_map _ k hk, hbk]
        exact runBatch_append_accept pre post mv v hpre hmv)
    rw [receive_tc_from_kafka, hgo]
    simp

/-- C2 witness: on a stream with no messages at all, the receiver returns
EXHAUSTED after exactly 5 attempts. -/
theorem C2_attempt_policy_witness :
    receive_tc_from_kafka batchesEmpty = (RxResult.exhausted, 5) :=
  (C2_attempt_policy batchesEmpty).1 (by intro i hi m hm; simp [batchesEmpty] at hm)

/-- C3 counterexample: with ACCEPTED 305 at step 0 on grid `[0,1,2]` and
inputs `[300,300,300]`, step 0 integrates with 300 and control-input[1]
becomes 305, but step 1 — the next iteration, whose lookup is at index 2 —
still integrates with 300: the overwrite of index 1 does not change what
the next iteration uses, contradicting the claim that it does. -/
theorem C3_counterexample :
    usedInput odeC uC (PyFloat.fin 350) (PyFloat.fin 1) x0C tC rxC 0 = PyFloat.fin 300 ∧
    (iterState odeC uC (PyFloat.fin 350) (PyFloat.fin 1) x0C tC rxC 1).u
      = [PyFloat.fin 300, PyFloat.fin 305, PyFloat.fin 300] ∧
    usedInput odeC uC (PyFloat.fin 350) (PyFloat.fin 1) x0C tC rxC 1 = PyFloat.fin 300 ∧
    usedInput odeC uC (PyFloat.fin 350) (PyFloat.fin 1) x0C tC rxC 1 ≠ PyFloat.fin 305 := by
  decide

/-- C3 (amended): when ACCEPTED with `v` at iteration `i`, the loop
overwrites control-input index `i + 1` with `v` after the step is
integrated; the input already applied to step `i` is the original entry at
index `i + 1`, and the next iteration's integration reads index `i + 2`,
which the overwrite leaves untouched — so the accepted value at index
`i + 1` is never used by a later integration step. -/
theorem C3_accept_updates_slot
    (ode : PyFloat × PyFloat → PyFloat × PyFloat → PyFloat → PyFloat → PyFloat → PyFloat × PyFloat)
    (u : List PyFloat) (Tf Caf : PyFloat) (x0 : PyFloat × PyFloat)
    (t : List PyFloat) (rx : ℕ → Option PyFloat) (i : ℕ) (v : PyFloat)
    (hv : rx i = some v) (hl : u.length = t.length) (hi : i + 1 < t.length) :
    (iterState ode u Tf Caf x0 t rx (i + 1)).u.getD (i + 1) (.fin 0) = v ∧
    usedInput ode u Tf Caf x0 t rx i = u.getD (i + 1) (.fin 0) ∧
    usedInput ode u Tf Caf x0 t rx (i + 1) = u.getD (i + 2) (.fin 0) := by
  refine ⟨?_, iterState_u_getD_future ode u Tf Caf x0 t rx i i le_rfl,
    iterState_u_getD_future ode u Tf Caf x0 t rx (i + 1) (i + 1) le_rfl⟩
  simp only [iterState, simStep, hv]
  exact getD_set_self _ _ _ _ (by rw [iterState_u_length]; omega)

/-- C3 witness: the amended theorem at the 305-on-step-0 scenario. -/
theorem C3_accept_updates_slot_witness :
    (iterState odeC uC (PyFloat.fin 350) (PyFloat.fin 1) x0C tC rxC 1).u.getD 1 (PyFloat.fin 0)
      = PyFloat.fin 305 ∧
    usedInput odeC uC (PyFloat.fin 350) (PyFloat.fin 1) x0C tC rxC 0
      = uC.getD 1 (PyFloat.fin 0) ∧
    usedInput odeC uC (PyFloat.fin 350) (PyFloat.fin 1) x0C tC rxC 1
      = uC.getD 2 (PyFloat.fin 0) :=
  C3_accept_updates_slot odeC uC (PyFloat.fin 350) (PyFloat.fin 1) x0C tC rxC 0
    (PyFloat.fin 305) (by decide) (by decide) (by decide)

/-- C4 counterexample: `+inf` is not finite, yet the publisher emits a
message for `(+inf, 300)` — the code filters only NaN, not non-finite
values. -/
theorem C4_counterexample :
    PyFloat.isFinite PyFloat.inf = false ∧
    (send_data_to_kafka PyFloat.inf (PyFloat.fin 300) false).emitted = true := by decide

/-- C4 (amended): the publisher emits exactly one message per call iff
neither value is NaN, and emits nothing when either value is NaN — in
particular never for `(NaN, x)` or `(x, NaN)`. -/
theorem C4_emission_iff_not_nan (ca temp : PyFloat) (hc : Bool) :
    ((send_data_to_kafka ca temp hc).emitted = true ↔
      (ca.isnan = false ∧ temp.isnan = false)) ∧
    (send_data_to_kafka PyFloat.nan temp hc).emitted = false ∧
    (send_data_to_kafka ca PyFloat.nan hc).emitted = false := by
  refine ⟨?_, by simp [send_data_to_kafka, PyFloat.isnan], ?_⟩
  · by_cases h1 : ca.isnan = true <;> by_cases h2 : temp.isnan = true <;>
      simp [send_data_to_kafka, h1, h2]
  · by_cases h1 : ca.isnan = true <;> simp [send_data_to_kafka, PyFloat.isnan, h1]

/-- C5 counterexample: a JSON-string payload parsing to `{"Tc": -inf}` is
accepted and its value returned, although `-inf` is not a finite real
number. -/
theorem C5_counterexample :
    PyFloat.isFinite PyFloat.ninf = false ∧
    receive_tc_from_kafka batchesNinf = (RxResult.accepted PyFloat.ninf, 1) := by decide

/-- C5 (amended): the receiver reaches ACCEPTED with value `v` only when
`v` is not NaN and some message of the inbound stream carries a present,
numeric `"Tc"` field equal to `v`; messages whose control value is absent
or NaN are never accepted (but non-NaN infinities are). -/
theorem C5_accept_sound (batches : ℕ → List MsgVal) (v : PyFloat) (n : ℕ)
    (h : receive_tc_from_kafka batches = (RxResult.accepted v, n)) :
    v.isnan = false ∧ ∃ i, i < 5 ∧ ∃ m ∈ batches i, msgTcNum m = some v := by
  obtain ⟨h1, b, hb, m, hm, h2⟩ := rxGo_accepted_sound _ 0 n v h
  simp only [List.mem_map, List.mem_range] at hb
  obtain ⟨i, hi, rfl⟩ := hb
  exact ⟨h1, i, hi, m, hm, h2⟩

/-- C5 witness: the soundness theorem applied to a stream accepting 300. -/
theorem C5_accept_sound_witness :
    (PyFloat.fin 300).isnan = false ∧
    ∃ i, i < 5 ∧ ∃ m ∈ batches300 i, msgTcNum m = some (PyFloat.fin 300) :=
  C5_accept_sound batches300 (PyFloat.fin 300) 1 (by decide)

/-- C6: on a message whose `"Tc"` field holds a non-numeric value, the
receiver neither accepts nor returns its no-value result: `np.isnan`
raises a `TypeError` that the `except (KeyError, json.JSONDecodeError)`
clause does not catch, so the call raises instead of logging and
skipping. -/
theorem C6_raises_on_nonnumeric_tc :
    receive_tc_from_kafka batchesNonnum = (RxResult.error, 1) ∧
    (∀ v : PyFloat, RxResult.error ≠ RxResult.accepted v) ∧
    RxResult.error ≠ RxResult.exhausted := by
  refine ⟨by decide, fun v h => ?_, by decide⟩
  cases h

/-- C7: when the receiver returns its no-value (EXHAUSTED) result at
iteration `i`, the loop leaves the whole control-input array unchanged; in
particular index `i + 1` keeps exactly the value just used for step `i`,
and no fallback to index `i` is applied. -/
theorem C7_exhausted_frame
    (ode : PyFloat × PyFloat → PyFloat × PyFloat → PyFloat → PyFloat → PyFloat → PyFloat × PyFloat)
    (u : List PyFloat) (Tf Caf : PyFloat) (x0 : PyFloat × PyFloat)
    (t : List PyFloat) (rx : ℕ → Option PyFloat) (i : ℕ) (h : rx i = none) :
    (iterState ode u Tf Caf x0 t rx (i + 1)).u = (iterState ode u Tf Caf x0 t rx i).u ∧
    (iterState ode u Tf Caf x0 t rx (i + 1)).u.getD (i + 1) (.fin 0)
      = usedInput ode u Tf Caf x0 t rx i := by
  have hu : (iterState ode u Tf Caf x0 t rx (i + 1)).u
      = (iterState ode u Tf Caf x0 t rx i).u := by
    simp only [iterState, simStep, h]
  exact ⟨hu, by rw [hu]; rfl⟩

/-- C7 witness: the theorem at a run where every receive is EXHAUSTED. -/
theorem C7_exhausted_frame_witness :
    (iterState odeC uC (PyFloat.fin 350) (PyFloat.fin 1) x0C tC rxNone 1).u
      = (iterState odeC uC (PyFloat.fin 350) (PyFloat.fin 1) x0C tC rxNone 0).u ∧
    (iterState odeC uC (PyFloat.fin 350) (PyFloat.fin 1) x0C tC rxNone 1).u.getD 1 (PyFloat.fin 0)
      = usedInput odeC uC (PyFloat.fin 350) (PyFloat.fin 1) x0C tC rxNone 0 :=
  C7_exhausted_frame odeC uC (PyFloat.fin 350) (PyFloat.fin 1) x0C tC rxNone 0 (by decide)

/-- C8: readiness-signal creation is idempotent: across any sequence of
telemetry calls starting with no marker, the marker is created exactly
once when some call succeeds (and zero times when none does); and once the
marker exists, no later call ever creates it again. -/
theorem C8_healthcheck_idempotent (sends : List (PyFloat × PyFloat)) :
    (runSends sends false).2
      = (if sends.any fun p => !p.1.isnan && !p.2.isnan then 1 else 0) ∧
    (runSends sends true).2 = 0 := by
  refine ⟨?_, by rw [runSends_true]⟩
  induction sends with
  | nil => rfl
  | cons p rest ih =>
    by_cases hp : (!p.1.isnan && !p.2.isnan) = true
    · simp [runSends, send_data_to_kafka, hp, runSends_true]
    · simp only [runSends, send_data_to_kafka, hp, Bool.false_eq_true, if_false]
      simp only [List.any_cons, hp, Bool.false_or]
      simpa using ih

/-- C9: after any number of loop iterations, the control-input array keeps
the length of the time grid, and its index 0 still holds the initial seed
value. -/
theorem C9_length_and_seed
    (ode : PyFloat × PyFloat → PyFloat × PyFloat → PyFloat → PyFloat → PyFloat → PyFloat × PyFloat)
    (u : List PyFloat) (Tf Caf : PyFloat) (x0 : PyFloat × PyFloat)
    (t : List PyFloat) (rx : ℕ → Option PyFloat) (hl : u.length = t.length) (n : ℕ) :
    (iterState ode u Tf Caf x0 t rx n).u.length = t.length ∧
    (iterState ode u Tf Caf x0 t rx n).u.getD 0 (.fin 0) = u.getD 0 (.fin 0) :=
  ⟨by rw [iterState_u_length, hl], iterState_u_getD_zero ode u Tf Caf x0 t rx n⟩

/-- C9 witness: the invariant at the concrete run, after both iterations. -/
theorem C9_length_and_seed_witness :
    (iterState odeC uC (PyFloat.fin 350) (PyFloat.fin 1) x0C tC rxC 2).u.length = tC.length ∧
    (iterState odeC uC (PyFloat.fin 350) (PyFloat.fin 1) x0C tC rxC 2).u.getD 0 (PyFloat.fin 0)
      = uC.getD 0 (PyFloat.fin 0) :=
  C9_length_and_seed odeC uC (PyFloat.fin 350) (PyFloat.fin 1) x0C tC rxC (by decide) 2

/-- C10: the simulation mutates the caller's `x0`: after each iteration
`i` it holds the newly integrated state `(Ca[i+1], T[i+1])`, and when
`simulate_cstr` returns, it holds the final state
`(Ca[len(t)-1], T[len(t)-1])` rather than the original initial
condition. -/
theorem C10_x0_inplace
    (ode : PyFloat × PyFloat → PyFloat × PyFloat → PyFloat → PyFloat → PyFloat → PyFloat × PyFloat)
    (u : List PyFloat) (Tf Caf : PyFloat) (x0 : PyFloat × PyFloat)
    (t : List PyFloat) (rx : ℕ → Option PyFloat) (ht : 1 ≤ t.length) :
    (∀ i, i + 1 < t.length →
      (iterState ode u Tf Caf x0 t rx (i + 1)).x0
        = ((iterState ode u Tf Caf x0 t rx (i + 1)).Ca.getD (i + 1) (.fin 0),
           (iterState ode u Tf Caf x0 t rx (i + 1)).T.getD (i + 1) (.fin 0))) ∧
    (simulate_cstr ode u Tf Caf x0 t rx).x0
      = ((simulate_cstr ode u Tf Caf x0 t rx).Ca.getD (t.length - 1) (.fin 0),
         (simulate_cstr ode u Tf Caf x0 t rx).T.getD (t.length - 1) (.fin 0)) := by
  refine ⟨fun i hi => iterState_x0_eq ode u Tf Caf x0 t rx (i + 1) hi, ?_⟩
  exact iterState_x0_eq ode u Tf Caf x0 t rx (t.length - 1) (by omega)

/-- C10 witness: at the concrete run the returned `x0` equals the final
`(Ca, T)` pair. -/
theorem C10_x0_inplace_witness :
    (simulate_cstr odeC uC (PyFloat.fin 350) (PyFloat.fin 1) x0C tC rxC).x0
      = ((simulate_cstr odeC uC (PyFloat.fin 350) (PyFloat.fin 1) x0C tC rxC).Ca.getD
           (tC.length - 1) (PyFloat.fin 0),
         (simulate_cstr odeC uC (PyFloat.fin 350) (PyFloat.fin 1) x0C tC rxC).T.getD
           (tC.length - 1) (PyFloat.fin 0)) :=
  (C10_x0_inplace odeC uC (PyFloat.fin 350) (PyFloat.fin 1) x0C tC rxC (by decide)).2

end CSTR
